import Mathlib

/-!
Verification development for the Samsung Health extractor repository
(`samsung_health_extractor.py`, `reedit.py`).  The Python functions that the
claims concern are shallowly embedded as executable Lean definitions; machine
integers are modelled as `Int`, CSV cells as an explicit `Cell` type, tables
as a header plus row-major cell lists, and fallible operations as `Option`.
-/

/-! ## Name cleaning (`clean_csv_name` in samsung_health_extractor.py,
`_clean_csv_name` in reedit.py; both bodies are identical). -/

/-- Embedding of the first cleaning step, `name.replace(".csv", "")`.
Python `str.replace` with no count removes every non-overlapping occurrence
of the pattern in a single left-to-right scan, which this windowed structural
recursion reproduces: whenever the next four characters are `.csv` they are
skipped, otherwise one character is emitted and the scan moves on. -/
def removeCsvOccurrences : List Char → List Char
  | c0 :: c1 :: c2 :: c3 :: rest =>
    if c0 = '.' ∧ c1 = 'c' ∧ c2 = 's' ∧ c3 = 'v' then
      removeCsvOccurrences rest
    else
      c0 :: removeCsvOccurrences (c1 :: c2 :: c3 :: rest)
  | c :: rest => c :: removeCsvOccurrences rest
  | [] => []

/-- Modelled from the claim wording, for comparison with the source behaviour:
remove exactly the first occurrence of `.csv` and leave the remainder of the
name untouched. -/
def removeFirstCsvOccurrence : List Char → List Char
  | c0 :: c1 :: c2 :: c3 :: rest =>
    if c0 = '.' ∧ c1 = 'c' ∧ c2 = 's' ∧ c3 = 'v' then
      rest
    else
      c0 :: removeFirstCsvOccurrence (c1 :: c2 :: c3 :: rest)
  | cs => cs

/-- Embedding of `name_without_ext.find("health")` followed by the slice
`name_without_ext[health_index + 6:]`: returns the characters after the first
occurrence of `health`, or `none` when the substring does not occur. -/
def findHealthTail : List Char → Option (List Char)
  | c0 :: c1 :: c2 :: c3 :: c4 :: c5 :: rest =>
    if c0 = 'h' ∧ c1 = 'e' ∧ c2 = 'a' ∧ c3 = 'l' ∧ c4 = 't' ∧ c5 = 'h' then
      some rest
    else
      findHealthTail (c1 :: c2 :: c3 :: c4 :: c5 :: rest)
  | _ => none

/-- The `health_index != -1` branch of `clean_csv_name`: when `health` occurs,
keep only what follows it, otherwise leave the string as it is. -/
def dropThroughHealth (cs : List Char) : List Char :=
  match findHealthTail cs with
  | some rest => rest
  | none => cs

/-- Embedding of `re.sub(r"\d+$", "", s)`: strip a trailing run of decimal
digits. -/
def stripTrailingDigits (cs : List Char) : List Char :=
  (cs.reverse.dropWhile Char.isDigit).reverse

/-- Embedding of `s.rstrip("._")`: strip a trailing run of dots and
underscores. -/
def rstripDotUnderscore (cs : List Char) : List Char :=
  (cs.reverse.dropWhile (fun c => c == '.' || c == '_')).reverse

/-- Embedding of `clean_csv_name` / `_clean_csv_name`: remove all `.csv`
occurrences, drop everything up to and including the first `health`, strip
trailing digits, then strip trailing dots and underscores. -/
def clean_csv_name (name : String) : String :=
  String.mk (rstripDotUnderscore (stripTrailingDigits (dropThroughHealth
    (removeCsvOccurrences name.data))))

/-! ## Catalog classification (`get_cleaned_csv_names`, hierarchical branch;
identical in both variants). -/

/-- Embedding of Python `cleaned_name.split(".")`: split a character list on
dots; like Python `str.split`, the result is never empty and empty segments
are preserved. -/
def splitDots : List Char → List (List Char)
  | [] => [[]]
  | c :: rest =>
    if c = '.' then
      [] :: splitDots rest
    else
      match splitDots rest with
      | p :: ps => (c :: p) :: ps
      | [] => [[c]]

/-- Embedding of Python `".".join(parts)` on the segment lists produced by
`splitDots`. -/
def joinDots : List (List Char) → List Char
  | [] => []
  | [p] => p
  | p :: ps => p ++ '.' :: joinDots ps

/-- How `get_cleaned_csv_names` records one surviving cleaned name:
either appended to a category's `files` list (no subcategory), or recorded
as a subcategory of a category. -/
inductive ClassifyResult where
  | file (category : List Char)
  | subcat (category subcategory : List Char)
deriving DecidableEq, Repr

/-- Embedding of the classification branch of `get_cleaned_csv_names`
(lines 315-341 of samsung_health_extractor.py, lines 166-191 of reedit.py):
one part means category `parts[0]`; two parts also means category `parts[0]`
with the name kept as a direct file; three or more parts mean the category is
the first two parts joined by a dot and the subcategory the remaining parts
joined by a dot. -/
def classifyCleanedName (cleanedName : List Char) : ClassifyResult :=
  match splitDots cleanedName with
  | [p] => .file p
  | [p, _] => .file p
  | p :: q :: rest => .subcat (p ++ '.' :: q) (joinDots rest)
  | [] => .file []

/-! ## Catalog filtering (`get_cleaned_csv_names`, per-file filter chain). -/

/-- The per-file filtering decision taken by `get_cleaned_csv_names` before a
name enters the catalog. -/
inductive FilterDecision where
  | ignored
  | empty
  | notInConfig
  | kept
deriving DecidableEq, Repr

/-- Embedding of the filter chain of `get_cleaned_csv_names` in
samsung_health_extractor.py (lines 300-313): ignore-list check, then
empty-file check (`hasData` is the result of `csv_has_data` for the file),
then the configuration check, which only applies when `enabled_csvs` is
non-empty. -/
def extractorFilterDecision (filterIgnored filterEmpty filterConfig : Bool)
    (ignoreSet enabledSet : List String) (hasData : Bool) (name : String) :
    FilterDecision :=
  if filterIgnored && ignoreSet.contains name then .ignored
  else if filterEmpty && !hasData then .empty
  else if filterConfig && !enabledSet.isEmpty && !(enabledSet.contains name) then .notInConfig
  else .kept

/-- Embedding of the filter chain of `get_cleaned_csv_names` in reedit.py
(lines 151-164): the same chain, except that the configuration check does not
test whether `enabled_csvs` is non-empty. -/
def reeditFilterDecision (filterIgnored filterEmpty filterConfig : Bool)
    (ignoreSet enabledSet : List String) (hasData : Bool) (name : String) :
    FilterDecision :=
  if filterIgnored && ignoreSet.contains name then .ignored
  else if filterEmpty && !hasData then .empty
  else if filterConfig && !(enabledSet.contains name) then .notInConfig
  else .kept

/-! ## Tables and cells.

A polars/pandas DataFrame is modelled as a header (column names) plus
row-major lists of cells.  Cell values carry the temporal types the merge
pipeline distinguishes: nulls, strings, machine integers, date-granularity
and timestamp-granularity values (both as epoch-derived integers). -/

/-- One CSV/table cell. -/
inductive Cell where
  | null
  | str (s : String)
  | int (n : Int)
  | date (d : Int)
  | datetime (t : Int)
deriving DecidableEq, Repr

/-- A loaded table: column names plus row-major cells. -/
structure Table where
  header : List String
  rows : List (List Cell)
deriving DecidableEq, Repr

/-- Index of a column name in a header (first occurrence). -/
def colIndex (hdr : List String) (name : String) : Option Nat :=
  match hdr with
  | [] => none
  | h :: t => if h = name then some 0 else (colIndex t name).map (· + 1)

/-- Whether a table has a column of the given name (`name in df.columns`). -/
def Table.hasCol (t : Table) (name : String) : Bool :=
  (colIndex t.header name).isSome

/-- Cell of a row at a column index (missing entries read as null). -/
def getCell (r : List Cell) (i : Nat) : Cell :=
  r.getD i Cell.null

/-- The values of the column at index `i`. -/
def Table.getColAt (t : Table) (i : Nat) : List Cell :=
  t.rows.map (fun r => getCell r i)

/-- The values of the named column (empty when the column is absent). -/
def Table.getCol (t : Table) (name : String) : List Cell :=
  match colIndex t.header name with
  | some i => t.getColAt i
  | none => []

/-- Embedding of `df.select(names)` / `df[names]`: keep the named columns, in
the given order. -/
def Table.selectCols (t : Table) (names : List String) : Table :=
  { header := names,
    rows := t.rows.map (fun r => names.map (fun n =>
      match colIndex t.header n with
      | some i => getCell r i
      | none => Cell.null)) }

/-- Embedding of `df.with_columns(pl.col(src).alias(dst))`: copy column `src`
under the name `dst` (overwriting an existing `dst` column, else appending a
new one).  `pl.col(src)` raises when `src` is absent, hence the `Option`. -/
def Table.aliasCol (t : Table) (src dst : String) : Option Table :=
  match colIndex t.header src with
  | none => none
  | some i =>
    match colIndex t.header dst with
    | some j => some { t with rows := t.rows.map (fun r => r.set j (getCell r i)) }
    | none => some { header := t.header ++ [dst],
                     rows := t.rows.map (fun r => r ++ [getCell r i]) }

/-- Apply a rename mapping to a header. -/
def renameHeader (m : List (String × String)) (hdr : List String) : List String :=
  hdr.map (fun h =>
    match m.lookup h with
    | some v => v
    | none => h)

/-- Embedding of polars `df.rename(m)`, which raises when a key of the
mapping is not an existing column. -/
def Table.renameStrict (t : Table) (m : List (String × String)) : Option Table :=
  if m.all (fun p => t.hasCol p.1) then
    some { t with header := renameHeader m t.header }
  else
    none

/-- Embedding of pandas `df.rename(columns=m)`, which silently ignores keys
that are not existing columns. -/
def Table.renameLoose (t : Table) (m : List (String × String)) : Table :=
  { t with header := renameHeader m t.header }

/-- Replace the values of the column at index `i`. -/
def Table.setColAt (t : Table) (i : Nat) (vals : List Cell) : Table :=
  { t with rows := t.rows.zipWith (fun r v => r.set i v) vals }

/-! ## Merge-key datetime conversion.

Timestamp-string parsing is done by the polars/pandas datetime parsers; it is
abstracted as a parameter `parse : String → Option Int` giving the epoch
milliseconds of a parseable string and `none` for an unparseable one.  The
two variants differ in how they use it: polars `str.to_datetime()` is strict
(one unparseable value raises, and the surrounding `except` then abandons the
conversion of the whole column), while pandas `to_datetime(errors="coerce")`
turns each unparseable value into a null. -/

/-- Milliseconds per day; `dt.date()` on an epoch-milliseconds timestamp
floors to this granularity. -/
def msPerDay : Int := 86400000

/-- Day index of an epoch-milliseconds timestamp (floor division, as in
polars `dt.date()` / pandas `.dt.date`). -/
def epochDay (t : Int) : Int := Int.fdiv t msPerDay

/-- Whether a cell can live in a numeric (Int64-like) column. -/
def cellNumericCompatible : Cell → Bool
  | .int _ => true
  | .null => true
  | _ => false

/-- Embedding of the dtype test
`df[merge_key].dtype in [pl.Int64, pl.Int32, pl.Float64, pl.Float32]` (and
`pd.api.types.is_numeric_dtype`): the column is numeric when every value is a
machine integer or null. -/
def colNumeric (cells : List Cell) : Bool :=
  cells.all cellNumericCompatible

/-- Embedding of `pl.from_epoch(col, time_unit="ms")`, optionally followed by
`.dt.date()`: interpret an integer as epoch milliseconds, keeping the full
timestamp when `useDatetime` is true and truncating to the day otherwise.
Nulls stay null. -/
def fromEpochCell (useDatetime : Bool) : Cell → Cell
  | .int n => if useDatetime then .datetime n else .date (epochDay n)
  | c => c

/-- One step of the strict polars string parse: a null passes through
(`some none`), a parseable string yields its timestamp, and anything else
(unparseable string, or a non-string value hit by `.str`) raises, modelled
as `none`. -/
def parseCellStrict (parse : String → Option Int) : Cell → Option (Option Int)
  | .null => some none
  | .str s =>
    match parse s with
    | some t => some (some t)
    | none => none
  | _ => none

/-- Option-valued traversal of a list: `some` of the image when every element
succeeds, `none` as soon as one fails. -/
def traverseOpt {α β : Type} (f : α → Option β) : List α → Option (List β)
  | [] => some []
  | a :: l =>
    match f a, traverseOpt f l with
    | some b, some bs => some (b :: bs)
    | _, _ => none

/-- Rebuild a cell from a successfully parsed value: a timestamp becomes a
datetime or (truncated) date cell, a passed-through null stays null. -/
def parsedToCell (useDatetime : Bool) : Option Int → Cell
  | some t => if useDatetime then .datetime t else .date (epochDay t)
  | none => .null

/-- Embedding of the merge-key conversion of samsung_health_extractor.py
(lines 563-587): `use_datetime` is the literal comparison
`merge_key_rename == "datetime"`; a numeric column is interpreted as epoch
milliseconds; otherwise the column is parsed with the strict
`str.to_datetime()`, and if that raises the caught exception leaves the
column unchanged. -/
def extractorConvertMergeKeyCol (parse : String → Option Int)
    (mergeKeyRename : String) (cells : List Cell) : List Cell :=
  let useDatetime := mergeKeyRename == "datetime"
  if colNumeric cells then
    cells.map (fromEpochCell useDatetime)
  else
    match traverseOpt (parseCellStrict parse) cells with
    | some parsed => parsed.map (parsedToCell useDatetime)
    | none => cells

/-- One step of the pandas coercing parse
(`pd.to_datetime(col, errors="coerce").dt.date`): an unparseable value
becomes null (NaT), a parseable string becomes a date-only value. -/
def reeditCoerceCell (parse : String → Option Int) : Cell → Cell
  | .str s =>
    match parse s with
    | some t => .date (epochDay t)
    | none => .null
  | .null => .null
  | _ => .null

/-- Embedding of the merge-key conversion of reedit.py (lines 366-377):
numeric columns are read as epoch milliseconds, string columns are parsed
with `errors="coerce"`, and in every case the final `.dt.date` truncates the
column to date-only granularity — there is no `"datetime"` special case. -/
def reeditConvertMergeKeyCol (parse : String → Option Int)
    (cells : List Cell) : List Cell :=
  if colNumeric cells then
    cells.map (fromEpochCell false)
  else
    cells.map (reeditCoerceCell parse)

/-- Apply the extractor merge-key conversion to the column named `combKey`
of a table, doing nothing when that column is absent (the code guards with
`if merge_key in df.columns`). -/
def extractorConvertKeyInTable (parse : String → Option Int)
    (mergeKeyRename combKey : String) (t : Table) : Table :=
  match colIndex t.header combKey with
  | none => t
  | some i => t.setColAt i (extractorConvertMergeKeyCol parse mergeKeyRename (t.getColAt i))

/-- Apply the reedit merge-key conversion to the column named `combKey` of a
table, doing nothing when that column is absent. -/
def reeditConvertKeyInTable (parse : String → Option Int)
    (combKey : String) (t : Table) : Table :=
  match colIndex t.header combKey with
  | none => t
  | some i => t.setColAt i (reeditConvertMergeKeyCol parse (t.getColAt i))

/-! ## Source specifications and the per-source pipeline. -/

/-- One entry of a combination's `sources` list, with the defaults already
applied at configuration read time (`priority` default 999, `required`
default false, `merge_key` default `"day_time"`, `merge_key_rename` default
equal to `merge_key`). -/
structure SourceSpec where
  csv_name : String
  priority : Int
  required : Bool
  columns_to_include : List String
  rename_columns : List (String × String)
  merge_key : String
  merge_key_rename : String
deriving DecidableEq, Repr

/-- Embedding of the `columns_to_include_with_key` computation (lines
476-478): start from the requested columns and append the source's local
merge key when it is not already requested and does exist in the table. -/
def columnsWithKey (src : SourceSpec) (df : Table) : List String :=
  if !src.columns_to_include.contains src.merge_key && df.hasCol src.merge_key then
    src.columns_to_include ++ [src.merge_key]
  else
    src.columns_to_include

/-- Embedding of the column-projection step (lines 480-509): when the
augmented request list is non-empty, keep its available columns, failing
(`none`, the `no_required_columns` branch) when none are available. -/
def projectRequestedCols (src : SourceSpec) (df : Table) : Option Table :=
  let cols := columnsWithKey src df
  if cols.isEmpty then
    some df
  else
    let avail := cols.filter (fun c => df.hasCol c)
    if avail.isEmpty then none else some (df.selectCols avail)

/-- Embedding of the per-source table pipeline of
samsung_health_extractor.py (lines 467-587): projection to the requested
columns, the merge-key duplication guard, the merge-key rename, the
remaining renames (with the original merge-key name filtered out), and the
merge-key datetime conversion.  `combKey` is the combination's standardized
merge key (`merge_key` in the code), used only by the conversion step.
`none` models the failure paths that the caller answers with
`break`/`continue` (missing required columns, or a raised polars error). -/
def extractorPrepareSource (parse : String → Option Int) (src : SourceSpec)
    (combKey : String) (df0 : Table) : Option Table :=
  match projectRequestedCols src df0 with
  | none => none
  | some df1 =>
    let df2opt :=
      match src.rename_columns.lookup src.merge_key with
      | some tgt => df1.aliasCol src.merge_key tgt
      | none => some df1
    match df2opt with
    | none => none
    | some df2 =>
      let df3 :=
        if df2.hasCol src.merge_key && src.merge_key_rename != src.merge_key then
          df2.renameLoose [(src.merge_key, src.merge_key_rename)]
        else
          df2
      let filtered := src.rename_columns.filter (fun p => p.1 != src.merge_key)
      match (if filtered.isEmpty then some df3 else df3.renameStrict filtered) with
      | none => none
      | some df4 => some (extractorConvertKeyInTable parse src.merge_key_rename combKey df4)

/-- Embedding of the per-source table pipeline of reedit.py (lines 338-377):
the same projection, then the merge-key rename, then the full
`rename_columns` mapping (no duplication guard, pandas rename ignoring
missing keys), then the always-to-date merge-key conversion. -/
def reeditPrepareSource (parse : String → Option Int) (src : SourceSpec)
    (combKey : String) (df0 : Table) : Option Table :=
  match projectRequestedCols src df0 with
  | none => none
  | some df1 =>
    let df2 :=
      if df1.hasCol src.merge_key && src.merge_key_rename != src.merge_key then
        df1.renameLoose [(src.merge_key, src.merge_key_rename)]
      else
        df1
    let df3 :=
      if src.rename_columns.isEmpty then df2 else df2.renameLoose src.rename_columns
    some (reeditConvertKeyInTable parse combKey df3)

/-! ## The combination engine (`process_data_combinations`). -/

/-- Result of resolving a source name against the CSV catalog and loading
the file: the name matches no file, the file fails to load, or a table. -/
inductive LoadResult where
  | notFound
  | loadError
  | ok (t : Table)
deriving DecidableEq, Repr

/-- The loop state of one combination: `combined_df` and the standardized
`merge_key`, both starting as `None`. -/
structure EngineState where
  combined : Option Table
  mergeKey : Option String
deriving DecidableEq, Repr

/-- What one iteration of the source loop does to the loop: fall through to
the next source (`continue` or normal completion) or leave the loop
(`break`). -/
inductive StepResult where
  | next (st : EngineState)
  | stop (st : EngineState)
deriving DecidableEq, Repr

/-- Embedding of `combined_df.join(df, on=merge_key, how="full",
coalesce=True)`: a full outer join on `key`, coalescing the key into a
single column; raises (`none`) when either side lacks the key column. -/
def Table.outerJoin (l r : Table) (key : String) : Option Table :=
  match colIndex l.header key, colIndex r.header key with
  | some li, some ri =>
    let rkeep := (List.range r.header.length).filter (fun j => j != ri)
    let rname := rkeep.map (fun j => r.header.getD j "")
    let stripR := fun (row : List Cell) => rkeep.map (fun j => getCell row j)
    let leftRows := l.rows.flatMap (fun lr =>
      let ms := r.rows.filter (fun rr => getCell rr ri == getCell lr li)
      if ms.isEmpty then
        [lr ++ rname.map (fun _ => Cell.null)]
      else
        ms.map (fun rr => lr ++ stripR rr))
    let rightOnly := r.rows.filter (fun rr =>
      !(l.rows.any (fun lr => getCell lr li == getCell rr ri)))
    let rightRows := rightOnly.map (fun rr =>
      ((l.header.map (fun _ => Cell.null)).set li (getCell rr ri)) ++ stripR rr)
    some { header := l.header ++ rname, rows := leftRows ++ rightRows }
  | _, _ => none

/-- Embedding of one iteration of the source loop of
`process_data_combinations` (samsung_health_extractor.py lines 398-654):
resolve and load the source (`env`); on failure `break` when required else
`continue`, leaving the state untouched.  On success, fix the combination's
merge key if still unset, run the per-source pipeline, and either install the
table as the base `combined_df` or re-coerce the existing `combined_df`'s key
column and outer-join.  All failure paths mirror the
`if required: break / else: continue` handling, and none of them resets
`combined_df`. -/
def stepSource (parse : String → Option Int) (env : String → LoadResult)
    (st : EngineState) (src : SourceSpec) : StepResult :=
  match env src.csv_name with
  | .notFound => if src.required then .stop st else .next st
  | .loadError => if src.required then .stop st else .next st
  | .ok df0 =>
    let combKey := st.mergeKey.getD src.merge_key_rename
    let mk := some combKey
    match extractorPrepareSource parse src combKey df0 with
    | none =>
      if src.required then .stop { st with mergeKey := mk }
      else .next { st with mergeKey := mk }
    | some df =>
      match st.combined with
      | none => .next { combined := some df, mergeKey := mk }
      | some cdf =>
        let cdf2 := extractorConvertKeyInTable parse combKey combKey cdf
        match cdf2.outerJoin df combKey with
        | some joined => .next { combined := some joined, mergeKey := mk }
        | none =>
          if src.required then .stop { combined := some cdf2, mergeKey := mk }
          else .next { combined := some cdf2, mergeKey := mk }

/-- The source loop: run `stepSource` over the priority-sorted sources,
stopping early on `break`.  The state reached when the loop leaves early is
kept — the code has no reset of `combined_df` on the `break` paths. -/
def runSources (parse : String → Option Int) (env : String → LoadResult) :
    List SourceSpec → EngineState → EngineState
  | [], st => st
  | s :: rest, st =>
    match stepSource parse env st s with
    | .next st2 => runSources parse env rest st2
    | .stop st2 => st2

/-- Stable insertion of a source into a priority-sorted list: the inserted
element goes before the first element of strictly greater-or-equal... it goes
after every element of strictly smaller priority and before the rest, which
together with `sortSources` reproduces a stable sort. -/
def insPri (s : SourceSpec) : List SourceSpec → List SourceSpec
  | [] => [s]
  | t :: ts => if t.priority < s.priority then t :: insPri s ts else s :: t :: ts

/-- Embedding of `sources.sort(key=lambda x: x.get("priority", 999))`:
Python's `list.sort` is a stable sort by priority, reproduced here as a
stable insertion sort.  The Python call sorts the configuration's own list
object in place. -/
def sortSources : List SourceSpec → List SourceSpec
  | [] => []
  | s :: ss => insPri s (sortSources ss)

/-- The `sources` sequence the caller observes in the configuration after
`process_data_combinations` returns: `sources.sort(...)` mutated the list in
place, so the caller sees the priority-sorted list. -/
def observedSourcesAfterRun (sources : List SourceSpec) : List SourceSpec :=
  sortSources sources

/-- Embedding of the per-combination part of `process_data_combinations`:
sort the sources by priority, then run the source loop from the empty
state. -/
def runCombination (parse : String → Option Int) (env : String → LoadResult)
    (sources : List SourceSpec) : EngineState :=
  runSources parse env (sortSources sources) { combined := none, mergeKey := none }

/-- Embedding of the final all-null row filter
(`combined_df.filter(~pl.all_horizontal(pl.all().is_null()))`, line 767). -/
def dropNullRows (t : Table) : Table :=
  { t with rows := t.rows.filter (fun r => !(r.all (fun c => c == Cell.null))) }

/-- Embedding of the output decision of `process_data_combinations` (lines
656-657 and 795-802): an output file is produced exactly when
`combined_df is not None and not combined_df.is_empty()`; otherwise the
`debug_no_data_to_output` branch only logs.  Of the output-structure
transformations applied inside the guard, only the final all-null row filter
is modelled here; the sort/format/projection steps do not affect whether a
file is written. -/
def combinationOutput (parse : String → Option Int) (env : String → LoadResult)
    (sources : List SourceSpec) : Option Table :=
  match (runCombination parse env sources).combined with
  | some t => if t.rows.isEmpty then none else some (dropNullRows t)
  | none => none

/-! ## Concrete fixtures used by witnesses and counterexamples. -/

/-- A concrete timestamp parser for concrete evaluations: `"good"` parses to
epoch millisecond 90000000 (01:01:00 on day 1), everything else is
unparseable. -/
def testParse : String → Option Int :=
  fun s => if s = "good" then some 90000000 else none

/-- A one-column, one-row table with a numeric `day_time` column. -/
def tblA : Table := { header := ["day_time"], rows := [[Cell.int 0]] }

/-- An environment in which only the source name `"a"` resolves and loads. -/
def envC1 : String → LoadResult :=
  fun n => if n = "a" then .ok tblA else .notFound

/-- An optional source reading `"a"` with all defaults. -/
def srcA : SourceSpec :=
  { csv_name := "a", priority := 1, required := false, columns_to_include := [],
    rename_columns := [], merge_key := "day_time", merge_key_rename := "day_time" }

/-- A required source reading the unresolvable name `"b"`. -/
def srcB : SourceSpec :=
  { csv_name := "b", priority := 2, required := true, columns_to_include := [],
    rename_columns := [], merge_key := "day_time", merge_key_rename := "day_time" }

/-- The source of the merge-key duplication scenario: `rename_columns` maps
the merge key `day_time` to the different name `timestamp` while
`merge_key_rename` leaves the key name unchanged. -/
def srcC2 : SourceSpec :=
  { csv_name := "c", priority := 1, required := false, columns_to_include := [],
    rename_columns := [("day_time", "timestamp")], merge_key := "day_time",
    merge_key_rename := "day_time" }

/-- A one-column table named `name` with the given column values. -/
def mkSingleCol (name : String) (vals : List Cell) : Table :=
  { header := [name], rows := vals.map (fun v => [v]) }

/-! ## Helper lemmas. -/

/-- A cell at datetime granularity (or null). -/
def cellDatetimeOrNull : Cell → Bool
  | .datetime _ => true
  | .null => true
  | _ => false

/-- A cell at date-only granularity (or null). -/
def cellDateOrNull : Cell → Bool
  | .date _ => true
  | .null => true
  | _ => false

theorem traverseOpt_eq_none {α β : Type} (f : α → Option β) (l : List α) (a : α)
    (ha : a ∈ l) (hf : f a = none) : traverseOpt f l = none := by
  induction l with
  | nil => cases ha
  | cons b l ih =>
    rcases List.mem_cons.mp ha with hb | hl
    · subst hb
      simp [traverseOpt, hf]
    · rw [traverseOpt, ih hl]
      cases f b <;> rfl

/-! ## Claim theorems. -/

/-- C10.  An output file is produced for a combination exactly when the
engine finishes with a merged table that exists (`combined_df is not None`)
and has at least one row (`not combined_df.is_empty()`); the empty case only
logs and is not an error (all the modelled functions are total — no failure
escapes the combination). -/
theorem c10_output_write_guard (parse : String → Option Int)
    (env : String → LoadResult) (sources : List SourceSpec) :
    (combinationOutput parse env sources).isSome = true ↔
      ∃ t, (runCombination parse env sources).combined = some t ∧ t.rows ≠ [] := by
  rcases h : (runCombination parse env sources).combined with _ | t
  · simp [combinationOutput, h]
  · by_cases hr : t.rows = []
    · simp [combinationOutput, h, hr]
    · simp [combinationOutput, h, hr, List.isEmpty_iff]

/-- C1, amended.  When a required source fails to resolve or to load, the
engine stops processing the remaining sources of the combination but keeps
the partially merged table accumulated so far: the loop leaves with the state
unchanged, and control falls through to the output block, which still writes
a non-empty partial table; processing then continues with the next
combination. -/
theorem c1_required_failure_stops_loop (parse : String → Option Int)
    (env : String → LoadResult) (s : SourceSpec) (rest : List SourceSpec)
    (st : EngineState)
    (henv : env s.csv_name = LoadResult.notFound ∨ env s.csv_name = LoadResult.loadError)
    (hreq : s.required = true) :
    runSources parse env (s :: rest) st = st := by
  rcases henv with h | h <;> simp [runSources, stepSource, h, hreq]

/-- Witness for `c1_required_failure_stops_loop`: the required source `"b"`
is not found in `envC1`, and the loop state holding the partial table `tblA`
is returned untouched. -/
theorem c1_required_failure_stops_loop_witness :
    runSources testParse envC1 [srcB] { combined := some tblA, mergeKey := some "day_time" }
      = { combined := some tblA, mergeKey := some "day_time" } :=
  c1_required_failure_stops_loop testParse envC1 srcB []
    { combined := some tblA, mergeKey := some "day_time" } (Or.inl (by decide)) (by decide)

/-- C3, amended.  On numeric merge-key columns the samsung_health_extractor
variant follows the granularity rule, deciding it per source by the literal
comparison of that source's `merge_key_rename` with `"datetime"` (for the
first source this is exactly the combination's standardized key):
`"datetime"` keeps full timestamps, any other name truncates to date-only.
The reedit variant always truncates to date-only, whatever the key name. -/
theorem c3_granularity_rule (parse : String → Option Int) (rename : String)
    (cells : List Cell) (h : colNumeric cells = true) :
    (rename = "datetime" →
      (extractorConvertMergeKeyCol parse rename cells).all cellDatetimeOrNull = true) ∧
    (rename ≠ "datetime" →
      (extractorConvertMergeKeyCol parse rename cells).all cellDateOrNull = true) ∧
    (reeditConvertMergeKeyCol parse cells).all cellDateOrNull = true := by
  rw [colNumeric, List.all_eq_true] at h
  refine ⟨?_, ?_, ?_⟩
  · intro hr
    subst hr
    rw [extractorConvertMergeKeyCol]
    simp only [beq_self_eq_true]
    rw [if_pos (by rw [colNumeric, List.all_eq_true]; exact h)]
    rw [List.all_eq_true]
    intro x hx
    rcases List.mem_map.mp hx with ⟨c, hc, rfl⟩
    have := h c hc
    cases c <;> simp_all [cellNumericCompatible, fromEpochCell, cellDatetimeOrNull]
  · intro hr
    rw [extractorConvertMergeKeyCol]
    have hb : (rename == "datetime") = false := by
      simpa using hr
    simp only [hb]
    rw [if_pos (by rw [colNumeric, List.all_eq_true]; exact h)]
    rw [List.all_eq_true]
    intro x hx
    rcases List.mem_map.mp hx with ⟨c, hc, rfl⟩
    have := h c hc
    cases c <;> simp_all [cellNumericCompatible, fromEpochCell, cellDateOrNull]
  · rw [reeditConvertMergeKeyCol]
    rw [if_pos (by rw [colNumeric, List.all_eq_true]; exact h)]
    rw [List.all_eq_true]
    intro x hx
    rcases List.mem_map.mp hx with ⟨c, hc, rfl⟩
    have := h c hc
    cases c <;> simp_all [cellNumericCompatible, fromEpochCell, cellDateOrNull]

/-- Witness for `c3_granularity_rule`, at a numeric column holding
90000000 ms (01:01 on day 1) and a null. -/
theorem c3_granularity_rule_witness :
    (extractorConvertMergeKeyCol testParse "datetime" [Cell.int 90000000, Cell.null]).all
      cellDatetimeOrNull = true ∧
    (extractorConvertMergeKeyCol testParse "day_time" [Cell.int 90000000, Cell.null]).all
      cellDateOrNull = true ∧
    (reeditConvertMergeKeyCol testParse [Cell.int 90000000, Cell.null]).all
      cellDateOrNull = true :=
  ⟨(c3_granularity_rule testParse "datetime" [Cell.int 90000000, Cell.null] (by decide)).1 rfl,
   (c3_granularity_rule testParse "day_time" [Cell.int 90000000, Cell.null] (by decide)).2.1
     (by decide),
   (c3_granularity_rule testParse "day_time" [Cell.int 90000000, Cell.null] (by decide)).2.2⟩

/-- C5, amended.  On a non-numeric merge-key column, per-cell tolerance holds
in the reedit variant (`errors="coerce"`): each unparseable value becomes
null while each parseable value still converts to a date.  In the
samsung_health_extractor variant the strict parse means one unparseable
value abandons the conversion of the entire column, leaving every value —
parseable ones included — unconverted; in neither variant does a bad value
abort the source itself. -/
theorem c5_per_cell_tolerance (parse : String → Option Int) (rename : String)
    (cells : List Cell) (h : colNumeric cells = false) :
    (∀ (i : Nat) (s : String), cells[i]? = some (Cell.str s) → parse s = none →
      (reeditConvertMergeKeyCol parse cells)[i]? = some Cell.null) ∧
    (∀ (i : Nat) (s : String) (t : Int), cells[i]? = some (Cell.str s) → parse s = some t →
      (reeditConvertMergeKeyCol parse cells)[i]? = some (Cell.date (epochDay t))) ∧
    (∀ c ∈ cells, parseCellStrict parse c = none →
      extractorConvertMergeKeyCol parse rename cells = cells) := by
  refine ⟨?_, ?_, ?_⟩
  · intro i s hi hp
    rw [reeditConvertMergeKeyCol, if_neg (by simp [h])]
    rw [List.getElem?_map, hi]
    simp [reeditCoerceCell, hp]
  · intro i s t hi hp
    rw [reeditConvertMergeKeyCol, if_neg (by simp [h])]
    rw [List.getElem?_map, hi]
    simp [reeditCoerceCell, hp]
  · intro c hc hbad
    rw [extractorConvertMergeKeyCol]
    simp only [if_neg (by simp [h] : ¬ colNumeric cells = true)]
    rw [traverseOpt_eq_none (parseCellStrict parse) cells c hc hbad]

/-- Witness for `c5_per_cell_tolerance`, at the string column
`["good", "bad"]` under `testParse`. -/
theorem c5_per_cell_tolerance_witness :
    (reeditConvertMergeKeyCol testParse [Cell.str "good", Cell.str "bad"])[1]?
      = some Cell.null ∧
    (reeditConvertMergeKeyCol testParse [Cell.str "good", Cell.str "bad"])[0]?
      = some (Cell.date (epochDay 90000000)) ∧
    extractorConvertMergeKeyCol testParse "day_time" [Cell.str "good", Cell.str "bad"]
      = [Cell.str "good", Cell.str "bad"] :=
  have H := c5_per_cell_tolerance testParse "day_time" [Cell.str "good", Cell.str "bad"]
    (by decide)
  ⟨H.1 1 "bad" (by decide) (by decide),
   H.2.1 0 "good" 90000000 (by decide) (by decide),
   H.2.2 (Cell.str "bad") (by decide) (by decide)⟩

/-- C1, counterexample.  The claim says that when a required source cannot be
resolved, the partially merged table from earlier sources is discarded and no
output file is written for the combination.  In the code the `break` at lines
442/652 leaves `combined_df` intact and control falls through to the output
block at lines 656-657, which writes it.  Concretely: source `"a"` (optional,
priority 1) loads a one-row table, then required source `"b"` is not found —
yet an output is produced from the partial table, so under the claim
`combinationOutput` would have to be `none` and it is not. -/
theorem c1_required_failure_keeps_partial_output :
    combinationOutput testParse envC1 [srcA, srcB]
      = some { header := ["day_time"], rows := [[Cell.date 0]] } ∧
    combinationOutput testParse envC1 [srcA, srcB] ≠ none := by
  constructor
  · decide
  · decide

/-- C4 (code_bug): behaviour of both filter chains at the failing input —
config-filtering enabled, empty enabled set, a non-ignored file named
`"sleep"` that has data.  The extractor variant keeps the file, as the claim
states; the reedit variant, which prints that all files will be processed
when the enabled set is empty, nevertheless filters the file out with the
not-in-config reason, contradicting its own message. -/
theorem c4_empty_enabled_set_behavior :
    extractorFilterDecision true true true [] [] true "sleep" = FilterDecision.kept ∧
    reeditFilterDecision true true true [] [] true "sleep" = FilterDecision.notInConfig := by
  constructor
  · decide
  · decide

/-- C6, counterexample.  The claim (and §8 of the spec) says
`clean("com.samsung.health.sleep.20230101.csv") == "sleep"`, but the code
only strips *trailing* dots and underscores (`rstrip("._")`), so the dot that
follows `health` survives at the front of the result. -/
theorem c6_clean_name_examples_fail :
    clean_csv_name "com.samsung.health.sleep.20230101.csv" ≠ "sleep" := by
  decide

/-- C6, amended.  What `clean_csv_name` actually returns on the two claimed
inputs: everything before and including `health` is removed, trailing digits
and trailing dots/underscores are stripped, and the leading dot remains, so
the results are `".sleep"` and `".exercise"`. -/
theorem c6_clean_name_examples :
    clean_csv_name "com.samsung.health.sleep.20230101.csv" = ".sleep" ∧
    clean_csv_name "com.samsung.health.exercise20230101123045.csv" = ".exercise" := by
  constructor
  · decide
  · decide

/-- C7, counterexample.  The claim says the `.csv`-removal step removes
exactly the first occurrence and leaves later occurrences in place (so on
`"a.csvb.csv"` it would return `"ab.csv"`), but Python's
`name.replace(".csv", "")` removes every occurrence and returns `"ab"`. -/
theorem c7_first_occurrence_contract_fails :
    removeCsvOccurrences "a.csvb.csv".data = "ab".data ∧
    removeFirstCsvOccurrence "a.csvb.csv".data = "ab.csv".data ∧
    removeCsvOccurrences "a.csvb.csv".data ≠ removeFirstCsvOccurrence "a.csvb.csv".data := by
  refine ⟨by decide, by decide, by decide⟩

/-- C8, counterexample.  The claim says a cleaned name with exactly one dot
uses the whole name as its category, but the code uses `parts[0]`: the name
`"foo.bar"` is classified under category `"foo"`, not `"foo.bar"`. -/
theorem c8_one_dot_category_fails :
    classifyCleanedName "foo.bar".data = ClassifyResult.file "foo".data ∧
    classifyCleanedName "foo.bar".data ≠ ClassifyResult.file "foo.bar".data := by
  constructor
  · decide
  · decide

/-- C9, counterexample.  The claim says the `sources` sequence observed after
a run is identical, element for element and in order, to the sequence before
the run; but `sources.sort(key=...)` sorts the configuration's list in
place, so a list given in non-priority order is observed reordered. -/
theorem c9_sources_reordered :
    observedSourcesAfterRun [srcB, srcA] ≠ [srcB, srcA] := by
  decide

/-- C3, counterexample.  The claim says that when the combination's
standardized merge-key name is `"datetime"` the key column keeps full
timestamp granularity.  The reedit variant's conversion (lines 366-377 of
reedit.py) applies `.dt.date` unconditionally — it has no `"datetime"`
branch at all — so the epoch-millisecond value 90000000 (01:01:00 on day 1)
is truncated to the day and the time of day is lost. -/
theorem c3_reedit_truncates_datetime_key :
    reeditConvertMergeKeyCol testParse [Cell.int 90000000] = [Cell.date 1] ∧
    reeditConvertMergeKeyCol testParse [Cell.int 90000000] ≠ [Cell.datetime 90000000] := by
  constructor
  · decide
  · decide

/-- C5, counterexample.  The claim says an unparseable merge-key value
becomes null while parseable values in the same column are still converted.
In samsung_health_extractor.py the conversion uses the strict polars
`str.to_datetime()`: one unparseable value (`"bad"`) raises, the exception
is caught at line 586, and the whole column is left unconverted — including
the parseable `"good"`, which under the claim would have become a date. -/
theorem c5_strict_parse_abandons_column :
    extractorConvertMergeKeyCol testParse "day_time" [Cell.str "good", Cell.str "bad"]
      = [Cell.str "good", Cell.str "bad"] ∧
    extractorConvertMergeKeyCol testParse "day_time" [Cell.str "good", Cell.str "bad"]
      ≠ [Cell.date 1, Cell.null] := by
  constructor
  · decide
  · decide

/-- C2, counterexample.  The claim says a source whose `rename_columns` maps
the merge key to a different name (with `merge_key_rename` unchanged) yields
a table containing both the merge-key column and the rename-target column
with identical values, row for row.  In reedit.py there is no duplication
guard: the rename simply renames `day_time` away, so the processed table has
no `day_time` column at all; and in samsung_health_extractor.py both columns
exist but the merge-key column is then datetime-normalized while the
duplicate keeps the raw values, so the values differ. -/
theorem c2_no_duplicate_in_reedit_variant :
    (reeditPrepareSource testParse srcC2 "day_time"
        (mkSingleCol "day_time" [Cell.int 86400000])).map (fun t => t.hasCol "day_time")
      = some false ∧
    (extractorPrepareSource testParse srcC2 "day_time"
        (mkSingleCol "day_time" [Cell.int 86400000])).map
          (fun t => t.getCol "day_time" == t.getCol "timestamp")
      = some false := by
  constructor
  · decide
  · decide

theorem insPri_perm (s : SourceSpec) (l : List SourceSpec) :
    (insPri s l).Perm (s :: l) := by
  induction l with
  | nil => simp [insPri]
  | cons t ts ih =>
    by_cases h : t.priority < s.priority
    · simp only [insPri, if_pos h]
      exact (ih.cons t).trans (List.Perm.swap s t ts)
    · simp [insPri, if_neg h]

theorem sortSources_perm (ss : List SourceSpec) : (sortSources ss).Perm ss := by
  induction ss with
  | nil => simp [sortSources]
  | cons s ts ih =>
    exact ((insPri_perm s (sortSources ts)).trans (ih.cons s))

theorem insPri_of_forall_le (s : SourceSpec) (l : List SourceSpec)
    (h : ∀ t ∈ l, s.priority ≤ t.priority) : insPri s l = s :: l := by
  cases l with
  | nil => rfl
  | cons t ts =>
    have hle := h t (List.mem_cons_self t ts)
    rw [insPri, if_neg (by omega)]

theorem sortSources_of_pairwise (ss : List SourceSpec)
    (h : List.Pairwise (fun a b => a.priority ≤ b.priority) ss) :
    sortSources ss = ss := by
  induction ss with
  | nil => rfl
  | cons s ts ih =>
    rw [List.pairwise_cons] at h
    rw [sortSources, ih h.2, insPri_of_forall_le s ts h.1]

/-- C9, amended.  `process_data_combinations` sorts each combination's
`sources` list in place (`sources.sort(key=...)`), so after a run the caller
observes the stable priority-sort of the original sequence: a permutation of
the original, equal to it exactly when the configuration was already listed
in non-decreasing priority order. -/
theorem c9_sources_stable_sorted (ss : List SourceSpec) :
    (observedSourcesAfterRun ss).Perm ss ∧
    (List.Pairwise (fun a b => a.priority ≤ b.priority) ss →
      observedSourcesAfterRun ss = ss) := by
  exact ⟨sortSources_perm ss, fun h => sortSources_of_pairwise ss h⟩

/-- Witness for `c9_sources_stable_sorted`: a list already sorted by
priority is observed unchanged. -/
theorem c9_sources_stable_sorted_witness :
    observedSourcesAfterRun [srcA, srcB] = [srcA, srcB] ∧
    (observedSourcesAfterRun [srcA, srcB]).Perm [srcA, srcB] :=
  ⟨(c9_sources_stable_sorted [srcA, srcB]).2 (by decide),
   (c9_sources_stable_sorted [srcA, srcB]).1⟩

theorem zipWith_set_head (vs ws : List Cell) :
    List.zipWith (fun r w => r.set 0 w) (vs.map (fun v => [v, v])) ws
      = List.zipWith (fun w v => [w, v]) ws vs := by
  induction vs generalizing ws with
  | nil => cases ws <;> simp
  | cons v vs ih =>
    cases ws with
    | nil => simp
    | cons w ws => simp [ih]

/-- C2, amended.  In the samsung_health_extractor variant the duplication
guard runs before any rename: for a source whose `rename_columns` maps the
merge key `day_time` to `timestamp` while `merge_key_rename` keeps the key
name, the processed table contains both columns, the duplicate `timestamp`
holding the original merge-key values and `day_time` holding their
datetime-normalized images (so the columns agree exactly when the conversion
leaves the values unchanged, not in general).  In the reedit variant there is
no duplication: the rename simply renames the merge key away and only the
`timestamp` column remains, with the original values. -/
theorem c2_merge_key_duplication (parse : String → Option Int) (vals : List Cell) :
    extractorPrepareSource parse srcC2 "day_time" (mkSingleCol "day_time" vals)
      = some { header := ["day_time", "timestamp"],
               rows := List.zipWith (fun w v => [w, v])
                 (extractorConvertMergeKeyCol parse "day_time" vals) vals } ∧
    reeditPrepareSource parse srcC2 "day_time" (mkSingleCol "day_time" vals)
      = some { header := ["timestamp"], rows := vals.map (fun v => [v]) } := by
  have hproj : projectRequestedCols srcC2 (mkSingleCol "day_time" vals)
      = some (mkSingleCol "day_time" vals) := by
    simp [projectRequestedCols, columnsWithKey, srcC2, mkSingleCol, Table.hasCol,
      colIndex, Table.selectCols, List.map_map, getCell]
  constructor
  · rw [extractorPrepareSource, hproj]
    have hlk : List.lookup srcC2.merge_key srcC2.rename_columns = some "timestamp" := by
      decide
    rw [hlk]
    simp [srcC2, Table.aliasCol, colIndex, mkSingleCol, Table.hasCol, Table.renameLoose,
      Table.renameStrict, extractorConvertKeyInTable, Table.setColAt, Table.getColAt,
      getCell, List.map_map, Function.comp_def]
    exact zipWith_set_head vals (extractorConvertMergeKeyCol parse "day_time" vals)
  · rw [reeditPrepareSource, hproj]
    simp [srcC2, mkSingleCol, Table.hasCol, colIndex, Table.renameLoose, renameHeader,
      List.lookup, reeditConvertKeyInTable]

theorem removeCsvOccurrences_length_le (cs : List Char) :
    (removeCsvOccurrences cs).length ≤ cs.length := by
  induction cs using removeCsvOccurrences.induct with
  | case1 c0 c1 c2 c3 rest h ih =>
    simp only [removeCsvOccurrences, if_pos h]
    simp only [List.length_cons]
    omega
  | case2 c0 c1 c2 c3 rest h ih =>
    simp only [removeCsvOccurrences, if_neg h]
    simp only [List.length_cons] at ih ⊢
    omega
  | case3 c rest h ih =>
    have he : removeCsvOccurrences (c :: rest) = c :: removeCsvOccurrences rest := by
      rcases rest with _ | ⟨a, _ | ⟨b, _ | ⟨d, t⟩⟩⟩
      · rfl
      · rfl
      · rfl
      · exact absurd rfl (fun hh => h a b d t hh)
    rw [he]
    simp only [List.length_cons]
    omega
  | case4 => simp [removeCsvOccurrences]

/-- C7, amended.  The `.csv`-removal step removes every occurrence met in
one left-to-right non-overlapping scan, not only the first: past a prefix
the scan leaves unchanged, an occurrence of `.csv` is removed and the scan
continues removing occurrences in the remainder. -/
theorem c7_removes_all_occurrences (xs ys : List Char)
    (h : removeCsvOccurrences xs = xs) :
    removeCsvOccurrences (xs ++ '.' :: 'c' :: 's' :: 'v' :: ys)
      = xs ++ removeCsvOccurrences ys := by
  revert h
  induction xs using removeCsvOccurrences.induct with
  | case1 c0 c1 c2 c3 rest hcond ih =>
    intro h
    exfalso
    simp only [removeCsvOccurrences, if_pos hcond] at h
    have hlen := removeCsvOccurrences_length_le rest
    have hl := congrArg List.length h
    simp only [List.length_cons] at hl
    omega
  | case2 c0 c1 c2 c3 rest hcond ih =>
    intro h
    simp only [removeCsvOccurrences, if_neg hcond, List.cons.injEq, true_and] at h
    have h2 := ih h
    simp only [List.cons_append] at h2 ⊢
    rw [removeCsvOccurrences, if_neg hcond]
    rw [h2]
  | case3 c rest hshort ih =>
    intro h
    rcases rest with _ | ⟨a, _ | ⟨b, _ | ⟨d, t⟩⟩⟩
    · simp [removeCsvOccurrences]
    · simp [removeCsvOccurrences]
    · simp [removeCsvOccurrences]
    · exact absurd rfl (fun hh => hshort a b d t hh)
  | case4 =>
    intro _
    simp [removeCsvOccurrences]

/-- Witness for `c7_removes_all_occurrences`: the scan leaves `"ab"`
unchanged, and on `"ab" ++ ".csv" ++ "x.csv"` it removes both the exhibited
occurrence and the one inside the remainder. -/
theorem c7_removes_all_occurrences_witness :
    removeCsvOccurrences ("ab".data ++ '.' :: 'c' :: 's' :: 'v' :: "x.csv".data)
      = "ab".data ++ removeCsvOccurrences "x.csv".data :=
  c7_removes_all_occurrences "ab".data "x.csv".data (by decide)

theorem splitDots_ne_nil (cs : List Char) : splitDots cs ≠ [] := by
  induction cs with
  | nil => simp [splitDots]
  | cons c rest ih =>
    rw [splitDots]
    split
    · simp
    · rcases hs : splitDots rest with _ | ⟨p, ps⟩
      · exact absurd hs ih
      · simp [hs]

theorem splitDots_dotfree (a : List Char) (h : ∀ c ∈ a, c ≠ '.') :
    splitDots a = [a] := by
  induction a with
  | nil => rfl
  | cons c rest ih =>
    rw [splitDots, if_neg (h c (List.mem_cons_self c rest))]
    rw [ih (fun x hx => h x (List.mem_cons_of_mem c hx))]

theorem splitDots_append (a b : List Char) (h : ∀ c ∈ a, c ≠ '.') :
    splitDots (a ++ '.' :: b) = a :: splitDots b := by
  induction a with
  | nil => simp [splitDots]
  | cons c rest ih =>
    rw [List.cons_append, splitDots, if_neg (h c (List.mem_cons_self c rest))]
    rw [ih (fun x hx => h x (List.mem_cons_of_mem c hx))]

theorem joinDots_splitDots (cs : List Char) : joinDots (splitDots cs) = cs := by
  induction cs with
  | nil => rfl
  | cons c rest ih =>
    rw [splitDots]
    by_cases hc : c = '.'
    · rw [if_pos hc]
      rcases hs : splitDots rest with _ | ⟨p, ps⟩
      · exact absurd hs (splitDots_ne_nil rest)
      · rw [hs] at ih
        rw [joinDots]
        · simp only [List.nil_append]
          rw [ih, hc]
        · simp
    · rw [if_neg hc]
      rcases hs : splitDots rest with _ | ⟨p, ps⟩
      · exact absurd hs (splitDots_ne_nil rest)
      · rw [hs] at ih
        rcases ps with _ | ⟨q, qs⟩
        · rw [joinDots] at ih ⊢
          rw [ih]
        · rw [joinDots] at ih
          · rw [joinDots]
            · rw [List.cons_append, ih]
            · simp
          · simp

/-- C8, amended.  For a surviving cleaned name: with zero dots the whole
name is the category (no subcategory); with exactly one dot the category is
the *first* dot-delimited segment, not the whole name, still with no
subcategory; with two or more dots the category is the first two segments
joined by a dot and the subcategory is the remaining segments joined by
dots. -/
theorem c8_classification_rule (a b c : List Char)
    (ha : ∀ x ∈ a, x ≠ '.') (hb : ∀ x ∈ b, x ≠ '.') :
    classifyCleanedName a = ClassifyResult.file a ∧
    classifyCleanedName (a ++ '.' :: b) = ClassifyResult.file a ∧
    classifyCleanedName (a ++ '.' :: (b ++ '.' :: c))
      = ClassifyResult.subcat (a ++ '.' :: b) c := by
  refine ⟨?_, ?_, ?_⟩
  · rw [classifyCleanedName, splitDots_dotfree a ha]
  · rw [classifyCleanedName, splitDots_append a b ha, splitDots_dotfree b hb]
  · rw [classifyCleanedName, splitDots_append a (b ++ '.' :: c) ha,
      splitDots_append b c hb]
    rcases hs : splitDots c with _ | ⟨q, qs⟩
    · exact absurd hs (splitDots_ne_nil c)
    · rw [← hs]
      have hj := joinDots_splitDots c
      rcases hs2 : splitDots c with _ | ⟨q2, qs2⟩
      · exact absurd hs2 (splitDots_ne_nil c)
      · rw [hs2] at hj
        simp only [hs2, hj]

/-- Witness for `c8_classification_rule`, at the dot-free segments `"foo"`
and `"bar"` with remainder `"x.y"`. -/
theorem c8_classification_rule_witness :
    classifyCleanedName "foo".data = ClassifyResult.file "foo".data ∧
    classifyCleanedName ("foo".data ++ '.' :: "bar".data)
      = ClassifyResult.file "foo".data ∧
    classifyCleanedName ("foo".data ++ '.' :: ("bar".data ++ '.' :: "x.y".data))
      = ClassifyResult.subcat ("foo".data ++ '.' :: "bar".data) "x.y".data :=
  c8_classification_rule "foo".data "bar".data "x.y".data (by decide) (by decide)
